import Mathlib

/-!
Verification of the dirigera-moodz light-synchronization server.

This file gives a shallow embedding, in Lean 4, of the parts of the
repository that the specification's testable properties talk about:

* the hue interpolation and the spatial palette indexing of
  `src/server/services/SceneEngine.ts`;
* the scene start/stop/update state machine of the same file;
* the rate-limited `CommandQueue` and the `updateLights` device loop of
  `src/server/controllers/LightsController.ts` (the `DirigeraService`
  part of that file);
* the `updateLights` request handler's validation in the same file;
* the `BeatDetector` of `src/lib/services/AudioAnalyzer.ts`;
* the `AnalysisState.smoothColor` accumulator of
  `backend/src/controllers/SpotifyController.ts`.

Numbers that the source handles as JS doubles are modelled as rationals
where the computation is rational, and as reals where the source takes
square roots or cosines.  JS-specific primitives (`%` as truncated
remainder, `Math.round`, `x || 100` on numbers) are modelled explicitly.
-/

namespace Moodz

/-- A color as used throughout the server: `{hue: 0-359, saturation: 0-1}`. -/
structure Color where
  hue : ℚ
  saturation : ℚ
deriving DecidableEq, Repr

/-! ## Scene engine: hue interpolation (`SceneEngine.interpolateColors`) -/

/-- The shortest-arc adjustment of the second hue performed by
`interpolateColors`:
`const diff = h2 - h1; if (diff > 180) h2 -= 360; else if (diff < -180) h2 += 360;`. -/
def adjustHue2 (h1 h2 : ℚ) : ℚ :=
  if h2 - h1 > 180 then h2 - 360
  else if h2 - h1 < -180 then h2 + 360
  else h2

/-- The wrap-around normalization at the end of `interpolateColors`:
`if (h < 0) h += 360; if (h >= 360) h -= 360;`. -/
def wrapHue (h : ℚ) : ℚ :=
  let h1 := if h < 0 then h + 360 else h
  if h1 ≥ 360 then h1 - 360 else h1

/-- `SceneEngine.interpolateColors(c1, c2, factor)`: shortest-path hue
interpolation and linear saturation interpolation. -/
def interpolateColors (c1 c2 : Color) (factor : ℚ) : Color :=
  { hue := wrapHue (c1.hue + (adjustHue2 c1.hue c2.hue - c1.hue) * factor)
    saturation := c1.saturation + (c2.saturation - c1.saturation) * factor }

/-- Circular distance between two hue values in `[0, 360)`. -/
def circDist (a b : ℚ) : ℚ := min |a - b| (360 - |a - b|)

lemma adjustHue2_abs_le (h1 h2 : ℚ) (h1l : 0 ≤ h1) (h1u : h1 < 360)
    (h2l : 0 ≤ h2) (h2u : h2 < 360) : |adjustHue2 h1 h2 - h1| ≤ 180 := by
  rw [abs_le]
  unfold adjustHue2
  split_ifs <;> constructor <;> linarith

lemma adjustHue2_congr (h1 h2 : ℚ) :
    ∃ k : ℤ, h2 = h1 + (adjustHue2 h1 h2 - h1) + 360 * k := by
  unfold adjustHue2
  split_ifs
  · exact ⟨1, by push_cast; ring⟩
  · exact ⟨-1, by push_cast; ring⟩
  · exact ⟨0, by push_cast; ring⟩

lemma wrapHue_congr (h : ℚ) : ∃ k : ℤ, wrapHue h = h + 360 * k := by
  simp only [wrapHue]
  split_ifs
  · exact ⟨0, by push_cast; ring⟩
  · exact ⟨1, by push_cast; ring⟩
  · exact ⟨-1, by push_cast; ring⟩
  · exact ⟨0, by push_cast; ring⟩

lemma wrapHue_mem (h : ℚ) (hl : -360 < h) (hu : h < 720) :
    0 ≤ wrapHue h ∧ wrapHue h < 360 := by
  simp only [wrapHue]
  split_ifs <;> constructor <;> linarith

/-- If `b` differs from `a + δ` by a multiple of 360, with `|δ| ≤ 180` and both
`a` and `b` in `[0, 360)`, then the circular distance from `a` to `b` is `|δ|`. -/
lemma circDist_shift (a b δ : ℚ) (ha : 0 ≤ a) (ha' : a < 360)
    (hb : 0 ≤ b) (hb' : b < 360) (hδ : |δ| ≤ 180)
    (h : ∃ k : ℤ, b = a + δ + 360 * k) : circDist a b = |δ| := by
  obtain ⟨k, hk⟩ := h
  have habs := abs_le.mp hδ
  have hk1 : k ≤ 1 := by
    by_contra hcon
    push_neg at hcon
    have : (2 : ℚ) ≤ (k : ℚ) := by exact_mod_cast hcon
    linarith
  have hk2 : -1 ≤ k := by
    by_contra hcon
    push_neg at hcon
    have h2 : k ≤ -2 := by omega
    have : (k : ℚ) ≤ -2 := by exact_mod_cast h2
    linarith
  interval_cases k
  · -- b = a + δ - 360, so δ ∈ (0, 180] and |a - b| = 360 - δ
    have hδpos : 0 < δ := by push_cast at hk; linarith
    have h1 : |a - b| = 360 - δ := by
      rw [abs_of_nonneg (by push_cast at hk; linarith)]
      push_cast at hk; linarith
    rw [circDist, h1, abs_of_pos hδpos]
    have : 360 - (360 - δ) = δ := by ring
    rw [this, min_eq_right (by linarith)]
  · -- b = a + δ
    have h1 : |a - b| = |δ| := by
      push_cast at hk
      rw [show a - b = -δ by linarith, abs_neg]
    rw [circDist, h1, min_eq_left (by linarith)]
  · -- b = a + δ + 360, so δ ∈ [-180, 0) and |a - b| = 360 + δ
    have hδneg : δ < 0 := by push_cast at hk; linarith
    have h1 : |a - b| = 360 + δ := by
      rw [abs_of_nonpos (by push_cast at hk; linarith)]
      push_cast at hk; linarith
    rw [circDist, h1, abs_of_neg hδneg]
    have : 360 - (360 + δ) = -δ := by ring
    rw [this, min_eq_right (by linarith)]

/-- The wrapped interpolant `wrapHue (a + d * f)` stays on the shorter arc
when `|d| ≤ 180` and `b` is congruent to `a + d` modulo 360. -/
lemma wrapHue_arc_sum (a b d f : ℚ) (hal : 0 ≤ a) (hau : a < 360)
    (hbl : 0 ≤ b) (hbu : b < 360) (hd : |d| ≤ 180) (hf0 : 0 ≤ f) (hf1 : f ≤ 1)
    (hcong : ∃ k : ℤ, b = a + d + 360 * k) :
    (0 ≤ wrapHue (a + d * f) ∧ wrapHue (a + d * f) < 360) ∧
    circDist a (wrapHue (a + d * f)) + circDist (wrapHue (a + d * f)) b
      = circDist a b := by
  obtain ⟨k0, hk0⟩ := hcong
  have hdabs := abs_le.mp hd
  have habsf : |f| = f := abs_of_nonneg hf0
  have habs1f : |1 - f| = 1 - f := abs_of_nonneg (by linarith)
  have hdf : |d * f| ≤ 180 := by
    rw [abs_mul, habsf]
    nlinarith [abs_nonneg d]
  have hd1f : |d * (1 - f)| ≤ 180 := by
    rw [abs_mul, habs1f]
    nlinarith [abs_nonneg d]
  have hdfabs := abs_le.mp hdf
  have hrmem : 0 ≤ wrapHue (a + d * f) ∧ wrapHue (a + d * f) < 360 :=
    wrapHue_mem (a + d * f) (by linarith) (by linarith)
  obtain ⟨k2, hk2⟩ := wrapHue_congr (a + d * f)
  have hdist1 : circDist a (wrapHue (a + d * f)) = |d * f| :=
    circDist_shift a _ (d * f) hal hau hrmem.1 hrmem.2 hdf ⟨k2, hk2⟩
  have hdist2 : circDist (wrapHue (a + d * f)) b = |d * (1 - f)| := by
    refine circDist_shift _ b (d * (1 - f)) hrmem.1 hrmem.2 hbl hbu hd1f
      ⟨k0 - k2, ?_⟩
    push_cast
    linear_combination hk0 - hk2
  have hdist3 : circDist a b = |d| :=
    circDist_shift a b d hal hau hbl hbu hd ⟨k0, hk0⟩
  rw [hdist1, hdist2, hdist3, abs_mul, abs_mul, habsf, habs1f]
  exact ⟨hrmem, by ring⟩

/-- C5: Hue interpolation takes the shorter circular arc.  For every pair of
colors with hues in `[0, 360)` and every factor in `[0, 1]`, the hue produced
by `SceneEngine.interpolateColors` lies in `[0, 360)` and lies on the shorter
arc between the two hues (its circular distances to the endpoints add up to
the circular distance between the endpoints); in particular interpolating
between hue 350 and hue 10 at factor 0.5 yields hue 0, not 180. -/
theorem hue_interpolation_shortest_arc (c1 c2 : Color) (f : ℚ)
    (h1l : 0 ≤ c1.hue) (h1u : c1.hue < 360) (h2l : 0 ≤ c2.hue) (h2u : c2.hue < 360)
    (hf0 : 0 ≤ f) (hf1 : f ≤ 1) :
    (0 ≤ (interpolateColors c1 c2 f).hue ∧ (interpolateColors c1 c2 f).hue < 360) ∧
    circDist c1.hue (interpolateColors c1 c2 f).hue
      + circDist (interpolateColors c1 c2 f).hue c2.hue = circDist c1.hue c2.hue ∧
    (interpolateColors ⟨350, 1⟩ ⟨10, 1⟩ (1/2)).hue = 0 := by
  have hconcrete : (interpolateColors ⟨350, 1⟩ ⟨10, 1⟩ (1/2)).hue = 0 := by
    norm_num [interpolateColors, adjustHue2, wrapHue]
  have hmain := wrapHue_arc_sum c1.hue c2.hue (adjustHue2 c1.hue c2.hue - c1.hue) f
    h1l h1u h2l h2u (adjustHue2_abs_le c1.hue c2.hue h1l h1u h2l h2u) hf0 hf1
    (adjustHue2_congr c1.hue c2.hue)
  have hr : (interpolateColors c1 c2 f).hue
      = wrapHue (c1.hue + (adjustHue2 c1.hue c2.hue - c1.hue) * f) := rfl
  rw [hr]
  exact ⟨hmain.1, hmain.2, hconcrete⟩

/-- Witness for C5 at the concrete input of the spec's example:
hues 350 and 10, factor 1/2. -/
theorem hue_interpolation_shortest_arc_witness :
    ((0:ℚ) ≤ (interpolateColors ⟨350, 1⟩ ⟨10, 1⟩ (1/2)).hue ∧
      (interpolateColors ⟨350, 1⟩ ⟨10, 1⟩ (1/2)).hue < 360) ∧
    circDist 350 (interpolateColors ⟨350, 1⟩ ⟨10, 1⟩ (1/2)).hue
      + circDist (interpolateColors ⟨350, 1⟩ ⟨10, 1⟩ (1/2)).hue 10 = circDist 350 10 ∧
    (interpolateColors ⟨350, 1⟩ ⟨10, 1⟩ (1/2)).hue = 0 :=
  hue_interpolation_shortest_arc ⟨350, 1⟩ ⟨10, 1⟩ (1/2)
    (by norm_num) (by norm_num) (by norm_num) (by norm_num) (by norm_num) (by norm_num)

/-! ## Scene engine: spatial palette indexing (`SceneEngine.getSpatialColor`) -/

/-- Truncation toward zero, as performed by JS when computing `a % m`. -/
def rTrunc (x : ℚ) : ℤ := if 0 ≤ x then ⌊x⌋ else ⌈x⌉

/-- The JS `%` operator on numbers: remainder with the sign of the dividend. -/
def jsMod (a m : ℚ) : ℚ := a - m * rTrunc (a / m)

/-- `const patternValue = (phase * scale) - time * speed` in
`getSpatialColor` (the phase itself is the linear or radial projection of the
fixture's normalized position, here abstracted as an arbitrary value). -/
def spatialPatternValue (phase scale time speed : ℚ) : ℚ :=
  phase * scale - time * speed

/-- `let normalizedIndex = patternValue % len; if (normalizedIndex < 0)
normalizedIndex += len;` in `getSpatialColor`. -/
def normalizedPaletteIndex (pv : ℚ) (len : ℕ) : ℚ :=
  let r := jsMod pv len
  if r < 0 then r + len else r

/-- `const index1 = Math.floor(normalizedIndex)`. -/
def paletteIndex1 (pv : ℚ) (len : ℕ) : ℤ := ⌊normalizedPaletteIndex pv len⌋

/-- `const index2 = (index1 + 1) % len` (both operands non-negative here, so
JS `%` agrees with Euclidean `%`). -/
def paletteIndex2 (pv : ℚ) (len : ℕ) : ℤ := (paletteIndex1 pv len + 1) % len

/-- `const fraction = normalizedIndex - index1`. -/
def paletteFraction (pv : ℚ) (len : ℕ) : ℚ :=
  normalizedPaletteIndex pv len - paletteIndex1 pv len

lemma jsMod_bounds (a m : ℚ) (hm : 0 < m) : -m < jsMod a m ∧ jsMod a m < m := by
  have hxm : a / m * m = a := div_mul_cancel₀ a (ne_of_gt hm)
  unfold jsMod rTrunc
  split_ifs with h
  · have h1 : (⌊a / m⌋ : ℚ) ≤ a / m := Int.floor_le _
    have h2 : a / m < ⌊a / m⌋ + 1 := Int.lt_floor_add_one _
    have hA : (⌊a / m⌋ : ℚ) * m ≤ a := by
      calc (⌊a / m⌋ : ℚ) * m ≤ a / m * m := by
            exact mul_le_mul_of_nonneg_right h1 (le_of_lt hm)
        _ = a := hxm
    have hB : a < ((⌊a / m⌋ : ℚ) + 1) * m := by
      calc a = a / m * m := hxm.symm
        _ < ((⌊a / m⌋ : ℚ) + 1) * m := by
            exact mul_lt_mul_of_pos_right h2 hm
    constructor
    · nlinarith
    · nlinarith
  · have h1 : a / m ≤ (⌈a / m⌉ : ℚ) := Int.le_ceil _
    have h2 : (⌈a / m⌉ : ℚ) < a / m + 1 := Int.ceil_lt_add_one _
    have hA : a ≤ (⌈a / m⌉ : ℚ) * m := by
      calc a = a / m * m := hxm.symm
        _ ≤ (⌈a / m⌉ : ℚ) * m := by
            exact mul_le_mul_of_nonneg_right h1 (le_of_lt hm)
    have hB : (⌈a / m⌉ : ℚ) * m < a + m := by
      calc (⌈a / m⌉ : ℚ) * m < (a / m + 1) * m := by
            exact mul_lt_mul_of_pos_right h2 hm
        _ = a + m := by rw [add_mul, hxm, one_mul]
    constructor
    · nlinarith
    · nlinarith

/-- C9: Spatial palette indexing is total.  For every phase value (the linear
or radial projection of a fixture position), elapsed time, scale, speed and
non-empty palette, the fractional palette index computed as
`(phase*scale - time*speed) mod paletteLength` lies in `[0, paletteLength)`
even when the pre-modulo value is negative, so both bracketing palette
accesses — the floor of the index and its successor wrapped modulo the
palette length — are in bounds, and the interpolation fraction lies in
`[0, 1)`: the interpolation branch never reads outside the palette. -/
theorem spatial_palette_index_total (phase scale time speed : ℚ)
    (palette : List Color) (hlen : 0 < palette.length) :
    0 ≤ normalizedPaletteIndex (spatialPatternValue phase scale time speed) palette.length ∧
    normalizedPaletteIndex (spatialPatternValue phase scale time speed) palette.length
      < palette.length ∧
    0 ≤ paletteIndex1 (spatialPatternValue phase scale time speed) palette.length ∧
    paletteIndex1 (spatialPatternValue phase scale time speed) palette.length
      < palette.length ∧
    0 ≤ paletteIndex2 (spatialPatternValue phase scale time speed) palette.length ∧
    paletteIndex2 (spatialPatternValue phase scale time speed) palette.length
      < palette.length ∧
    0 ≤ paletteFraction (spatialPatternValue phase scale time speed) palette.length ∧
    paletteFraction (spatialPatternValue phase scale time speed) palette.length < 1 := by
  set pv := spatialPatternValue phase scale time speed
  set n := palette.length with hn
  have hnQ : (0 : ℚ) < (n : ℚ) := by exact_mod_cast hlen
  obtain ⟨hm1, hm2⟩ := jsMod_bounds pv n hnQ
  have hni : 0 ≤ normalizedPaletteIndex pv n ∧ normalizedPaletteIndex pv n < n := by
    simp only [normalizedPaletteIndex]
    split_ifs with h
    · constructor <;> linarith
    · constructor <;> linarith
  have hi1 : 0 ≤ paletteIndex1 pv n ∧ paletteIndex1 pv n < n := by
    constructor
    · exact Int.floor_nonneg.mpr hni.1
    · have : (⌊normalizedPaletteIndex pv n⌋ : ℚ) < (n : ℚ) :=
        lt_of_le_of_lt (Int.floor_le _) hni.2
      exact_mod_cast this
  have hi2 : 0 ≤ paletteIndex2 pv n ∧ paletteIndex2 pv n < n := by
    have hn0 : (n : ℤ) ≠ 0 := by exact_mod_cast Nat.pos_iff_ne_zero.mp hlen
    have hnpos : (0 : ℤ) < (n : ℤ) := by exact_mod_cast hlen
    exact ⟨Int.emod_nonneg _ hn0, Int.emod_lt_of_pos _ hnpos⟩
  have hfr : 0 ≤ paletteFraction pv n ∧ paletteFraction pv n < 1 := by
    unfold paletteFraction paletteIndex1
    constructor
    · linarith [Int.floor_le (normalizedPaletteIndex pv n)]
    · linarith [Int.lt_floor_add_one (normalizedPaletteIndex pv n)]
  exact ⟨hni.1, hni.2, hi1.1, hi1.2, hi2.1, hi2.2, hfr.1, hfr.2⟩

/-- Witness for C9 at a concrete input with a negative pre-modulo value:
phase 0, scale 1, time 7, speed 1 over a 5-color palette gives pattern value
`-7`. -/
theorem spatial_palette_index_total_witness :
    0 ≤ normalizedPaletteIndex (spatialPatternValue 0 1 7 1)
        (List.length [(⟨30, 1⟩ : Color), ⟨10, 1⟩, ⟨45, 1⟩, ⟨340, 1⟩, ⟨20, 1⟩]) ∧
    normalizedPaletteIndex (spatialPatternValue 0 1 7 1)
        (List.length [(⟨30, 1⟩ : Color), ⟨10, 1⟩, ⟨45, 1⟩, ⟨340, 1⟩, ⟨20, 1⟩])
      < List.length [(⟨30, 1⟩ : Color), ⟨10, 1⟩, ⟨45, 1⟩, ⟨340, 1⟩, ⟨20, 1⟩] ∧
    0 ≤ paletteIndex1 (spatialPatternValue 0 1 7 1)
        (List.length [(⟨30, 1⟩ : Color), ⟨10, 1⟩, ⟨45, 1⟩, ⟨340, 1⟩, ⟨20, 1⟩]) ∧
    paletteIndex1 (spatialPatternValue 0 1 7 1)
        (List.length [(⟨30, 1⟩ : Color), ⟨10, 1⟩, ⟨45, 1⟩, ⟨340, 1⟩, ⟨20, 1⟩])
      < List.length [(⟨30, 1⟩ : Color), ⟨10, 1⟩, ⟨45, 1⟩, ⟨340, 1⟩, ⟨20, 1⟩] ∧
    0 ≤ paletteIndex2 (spatialPatternValue 0 1 7 1)
        (List.length [(⟨30, 1⟩ : Color), ⟨10, 1⟩, ⟨45, 1⟩, ⟨340, 1⟩, ⟨20, 1⟩]) ∧
    paletteIndex2 (spatialPatternValue 0 1 7 1)
        (List.length [(⟨30, 1⟩ : Color), ⟨10, 1⟩, ⟨45, 1⟩, ⟨340, 1⟩, ⟨20, 1⟩])
      < List.length [(⟨30, 1⟩ : Color), ⟨10, 1⟩, ⟨45, 1⟩, ⟨340, 1⟩, ⟨20, 1⟩] ∧
    0 ≤ paletteFraction (spatialPatternValue 0 1 7 1)
        (List.length [(⟨30, 1⟩ : Color), ⟨10, 1⟩, ⟨45, 1⟩, ⟨340, 1⟩, ⟨20, 1⟩]) ∧
    paletteFraction (spatialPatternValue 0 1 7 1)
        (List.length [(⟨30, 1⟩ : Color), ⟨10, 1⟩, ⟨45, 1⟩, ⟨340, 1⟩, ⟨20, 1⟩]) < 1 :=
  spatial_palette_index_total 0 1 7 1
    [⟨30, 1⟩, ⟨10, 1⟩, ⟨45, 1⟩, ⟨340, 1⟩, ⟨20, 1⟩] (by decide)

/-! ## Actuation layer: the rate-limited `CommandQueue`

`CommandQueue.process` drains the FIFO queue; before each unit of work it
sleeps `minInterval - (now - lastExecutionTime)` when that is positive, and
after the unit completes it sets `lastExecutionTime := Date.now()`.  The
wrapper pushed by `CommandQueue.add` catches the unit's error and rejects the
caller's promise, so the loop's own `await command()` never throws: a failing
unit is logged and `lastExecutionTime` is updated all the same, and the loop
proceeds to the next item.  We model a unit of work by its execution duration
and whether it fails; the run returns the start time of every unit. -/

/-- `this.minInterval = 1000 / commandsPerSecond` in the `CommandQueue`
constructor.  `DirigeraService` constructs its queue with
`new CommandQueue(10, logger)`. -/
def minIntervalOf (commandsPerSecond : ℚ) : ℚ := 1000 / commandsPerSecond

/-- A unit of work enqueued via `CommandQueue.add`: how long it runs and
whether it fails (a failing unit rejects its caller's promise but neither
stops the loop nor prevents `lastExecutionTime` from being updated). -/
structure QueueItem where
  duration : ℚ
  fails : Bool
deriving DecidableEq, Repr

/-- The start times of the queue items, as produced by `CommandQueue.process`:
given `lastExecutionTime` and the current instant, each item starts at
`max (last + minInterval) now` (the sleep) and completes `duration` later,
which becomes both the new `lastExecutionTime` and the next current instant. -/
def queueStartTimes (minInterval : ℚ) : ℚ → ℚ → List QueueItem → List ℚ
  | _, _, [] => []
  | last, now, item :: rest =>
    let start := if now - last < minInterval then last + minInterval else now
    let finish := start + item.duration
    start :: queueStartTimes minInterval finish finish rest

lemma queueStartTimes_ge (minInterval : ℚ) (hmi : 0 ≤ minInterval) :
    ∀ (items : List QueueItem) (last now : ℚ),
      (∀ it ∈ items, 0 ≤ it.duration) →
      ∀ s ∈ queueStartTimes minInterval last now items, last + minInterval ≤ s := by
  intro items
  induction items with
  | nil => intro last now _ s hs; simp [queueStartTimes] at hs
  | cons item rest ih =>
    intro last now hdur s hs
    simp only [queueStartTimes, List.mem_cons] at hs
    have hdi : 0 ≤ item.duration := hdur item (List.mem_cons_self _ _)
    rcases hs with hs | hs
    · subst hs
      split_ifs <;> linarith
    · have hrest := ih _ _ (fun it hit => hdur it (List.mem_cons_of_mem _ hit)) s hs
      revert hrest
      split_ifs <;> intro hrest <;> linarith

lemma queueStartTimes_length (minInterval : ℚ) :
    ∀ (items : List QueueItem) (last now : ℚ),
      (queueStartTimes minInterval last now items).length = items.length := by
  intro items
  induction items with
  | nil => intro last now; rfl
  | cons item rest ih => intro last now; simp [queueStartTimes, ih]

/-- C1: Rate-limit invariant of the actuation command queue.  For every
sequence of units of work and every initial `lastExecutionTime`/current
instant, no two queue items begin executing closer together than
`1000/commandsPerSecond` ms — which is 100 ms for the `commandsPerSecond = 10`
used by `DirigeraService` — and this holds whether or not earlier items fail:
the run starts exactly as many items as were enqueued (a failing item is
logged and the queue continues with the next item; failure never changes the
timing, because the wrapper installed by `add` catches the error before the
loop updates `lastExecutionTime`). -/
theorem commandQueue_rate_limit (last now : ℚ) (items : List QueueItem)
    (hdur : ∀ it ∈ items, 0 ≤ it.duration) :
    minIntervalOf 10 = 100 ∧
    List.Pairwise (fun a b => a + minIntervalOf 10 ≤ b)
      (queueStartTimes (minIntervalOf 10) last now items) ∧
    (queueStartTimes (minIntervalOf 10) last now items).length = items.length := by
  have hmi : minIntervalOf 10 = 100 := by norm_num [minIntervalOf]
  refine ⟨hmi, ?_, queueStartTimes_length _ items last now⟩
  have hmi0 : (0 : ℚ) ≤ minIntervalOf 10 := by rw [hmi]; norm_num
  clear hmi
  induction items generalizing last now with
  | nil => simp [queueStartTimes]
  | cons item rest ih =>
    simp only [queueStartTimes, List.pairwise_cons]
    have hdi : 0 ≤ item.duration := hdur item (List.mem_cons_self _ _)
    have hdur' : ∀ it ∈ rest, 0 ≤ it.duration :=
      fun it hit => hdur it (List.mem_cons_of_mem _ hit)
    constructor
    · intro s hs
      have hges := queueStartTimes_ge (minIntervalOf 10) hmi0 rest _ _ hdur' s hs
      split_ifs at hges ⊢ <;> linarith
    · exact ih _ _ hdur'

/-- Witness for C1: three queued units, the first of which fails. -/
theorem commandQueue_rate_limit_witness :
    minIntervalOf 10 = 100 ∧
    List.Pairwise (fun a b => a + minIntervalOf 10 ≤ b)
      (queueStartTimes (minIntervalOf 10) 0 0 [⟨5, true⟩, ⟨0, false⟩, ⟨3, false⟩]) ∧
    (queueStartTimes (minIntervalOf 10) 0 0
      [⟨5, true⟩, ⟨0, false⟩, ⟨3, false⟩]).length
      = List.length [(⟨5, true⟩ : QueueItem), ⟨0, false⟩, ⟨3, false⟩] :=
  commandQueue_rate_limit 0 0 [⟨5, true⟩, ⟨0, false⟩, ⟨3, false⟩] (by decide)

/-! ## Actuation layer: `DirigeraService.updateLights`

`updateLights` first applies an optimistic update to the registry (the same
mutable `Device` objects the queued closure later reads), then enqueues a
closure that walks the registry and issues the per-device hub calls.  Both
passes skip unselected devices and devices that are off unless the update
carries `isOn: true`.  Because the optimistic pass mutates `currentState`
before the closure runs, the closure observes the optimistically updated
states; we model this by computing the updated registry first and deriving
the device calls from it. -/

structure Capabilities where
  canChangeBrightness : Bool
  canChangeColor : Bool
deriving DecidableEq, Repr

structure DeviceState where
  isOn : Bool
  brightness : ℚ
  color : Option Color
deriving DecidableEq, Repr

structure Device where
  id : String
  name : String
  capabilities : Capabilities
  currentState : DeviceState
  isSelected : Bool
deriving DecidableEq, Repr

/-- The body of a `POST /api/lights/update` request / a `LightUpdate`. -/
structure LightUpdate where
  color : Option Color
  brightness : Option ℚ
  transitionTime : Option ℚ
  isOn : Option Bool
deriving DecidableEq, Repr

/-- JS `Math.round`: round half away from zero toward `+∞`. -/
def jsRound (q : ℚ) : ℤ := ⌊q + 1/2⌋

/-- JS `update.transitionTime || 100` on an optional number (0 is falsy). -/
def jsOr100 (t : Option ℚ) : ℚ :=
  match t with
  | some v => if v = 0 then 100 else v
  | none => 100

/-- A call issued to the hub client (`this.client.lights.…`). -/
inductive DeviceCall where
  | setIsOn (id : String) (isOn : Bool)
  | setLightColor (id : String) (colorHue : ℤ) (colorSaturation : ℚ)
      (transitionTime : ℚ)
  | setLightLevel (id : String) (lightLevel : ℤ) (transitionTime : ℚ)
deriving DecidableEq, Repr

def DeviceCall.targetId : DeviceCall → String
  | .setIsOn i _ => i
  | .setLightColor i _ _ _ => i
  | .setLightLevel i _ _ => i

def DeviceCall.isColorCall : DeviceCall → Bool
  | .setLightColor _ _ _ _ => true
  | _ => false

def DeviceCall.isBrightnessCall : DeviceCall → Bool
  | .setLightLevel _ _ _ => true
  | _ => false

/-- The optimistic pass of `updateLights`: mutate the local `currentState` of
every selected device that is on or being turned on. -/
def applyOptimistic (update : LightUpdate) (device : Device) : Device :=
  if ¬device.isSelected then device
  else if ¬device.currentState.isOn ∧ update.isOn ≠ some true then device
  else
    { device with
      currentState :=
        { isOn := update.isOn.getD device.currentState.isOn
          color :=
            if update.color.isSome ∧ device.capabilities.canChangeColor then
              update.color
            else device.currentState.color
          brightness :=
            match update.brightness with
            | some b =>
              if device.capabilities.canChangeBrightness then b
              else device.currentState.brightness
            | none => device.currentState.brightness } }

/-- The hub calls the queued closure of `updateLights` issues for one device
(in source order: `setIsOn`, then `setLightColor`, then `setLightLevel`),
with the capability gating and the off-device skip of the source. -/
def queuedCalls (update : LightUpdate) (device : Device) : List DeviceCall :=
  if ¬device.isSelected then []
  else if ¬device.currentState.isOn ∧ update.isOn ≠ some true then []
  else
    (match update.isOn with
      | some v => [DeviceCall.setIsOn device.id v]
      | none => [])
    ++ (match update.color with
      | some c =>
        if device.capabilities.canChangeColor then
          [DeviceCall.setLightColor device.id (jsRound c.hue) c.saturation
            (jsOr100 update.transitionTime)]
        else []
      | none => [])
    ++ (match update.brightness with
      | some b =>
        if device.capabilities.canChangeBrightness then
          [DeviceCall.setLightLevel device.id (jsRound (max 1 (min 100 b)))
            (jsOr100 update.transitionTime)]
        else []
      | none => [])

/-- `DirigeraService.updateLights`: the registry after the optimistic pass,
and the hub calls the queued closure will issue (computed from the
optimistically updated registry, since the closure reads the same mutated
objects). -/
def updateLights (reg : List Device) (update : LightUpdate) :
    List Device × List DeviceCall :=
  (reg.map (applyOptimistic update),
   (reg.map (applyOptimistic update)).flatMap (queuedCalls update))

/-- The calls a given fixture receives: those targeting its id. -/
def callsFor (id : String) (calls : List DeviceCall) : List DeviceCall :=
  calls.filter (fun c => decide (c.targetId = id))

lemma applyOptimistic_id (u : LightUpdate) (d : Device) :
    (applyOptimistic u d).id = d.id := by
  unfold applyOptimistic
  split_ifs <;> rfl

lemma applyOptimistic_capabilities (u : LightUpdate) (d : Device) :
    (applyOptimistic u d).capabilities = d.capabilities := by
  unfold applyOptimistic
  split_ifs <;> rfl

lemma applyOptimistic_isSelected (u : LightUpdate) (d : Device) :
    (applyOptimistic u d).isSelected = d.isSelected := by
  unfold applyOptimistic
  split_ifs <;> rfl

lemma queuedCalls_targetId (u : LightUpdate) (d : Device) :
    ∀ call ∈ queuedCalls u d, call.targetId = d.id := by
  intro call hcall
  unfold queuedCalls at hcall
  split_ifs at hcall <;>
    first
    | exact absurd hcall (List.not_mem_nil _)
    | (simp only [List.append_assoc, List.mem_append] at hcall
       rcases hcall with hc | hc | hc <;>
         (split at hc <;> simp_all [DeviceCall.targetId]))

lemma flatMap_queuedCalls_target (u : LightUpdate) (l : List Device) :
    ∀ call ∈ (l.map (applyOptimistic u)).flatMap (queuedCalls u),
      call.targetId ∈ l.map Device.id := by
  intro call hc
  simp only [List.mem_flatMap, List.mem_map] at hc
  obtain ⟨d2, ⟨e, he, rfl⟩, hc⟩ := hc
  have ht := queuedCalls_targetId u _ call hc
  rw [applyOptimistic_id] at ht
  exact List.mem_map.mpr ⟨e, he, ht.symm⟩

lemma callsFor_flatMap (u : LightUpdate) :
    ∀ (reg : List Device) (d : Device), d ∈ reg → (reg.map Device.id).Nodup →
      callsFor d.id ((reg.map (applyOptimistic u)).flatMap (queuedCalls u))
        = queuedCalls u (applyOptimistic u d) := by
  intro reg
  induction reg with
  | nil => intro d hd; simp at hd
  | cons e rest ih =>
    intro d hd hnd
    simp only [List.map_cons, List.nodup_cons] at hnd
    simp only [List.map_cons, List.flatMap_cons] at *
    unfold callsFor
    rw [List.filter_append]
    rcases List.mem_cons.mp hd with rfl | hd2
    · have h1 : (queuedCalls u (applyOptimistic u d)).filter
          (fun c => decide (c.targetId = d.id)) = queuedCalls u (applyOptimistic u d) := by
        refine List.filter_eq_self.mpr (fun c hc => ?_)
        have ht := queuedCalls_targetId u _ c hc
        rw [applyOptimistic_id] at ht
        simp [ht]
      have h2 : ((rest.map (applyOptimistic u)).flatMap (queuedCalls u)).filter
          (fun c => decide (c.targetId = d.id)) = [] := by
        refine List.filter_eq_nil_iff.mpr (fun c hc => ?_)
        have ht := flatMap_queuedCalls_target u rest c hc
        simp only [decide_eq_true_eq]
        intro heq
        rw [heq] at ht
        exact hnd.1 ht
      rw [h1, h2, List.append_nil]
    · have hne : e.id ≠ d.id := by
        intro heq
        exact hnd.1 (heq ▸ List.mem_map.mpr ⟨d, hd2, rfl⟩)
      have h1 : (queuedCalls u (applyOptimistic u e)).filter
          (fun c => decide (c.targetId = d.id)) = [] := by
        refine List.filter_eq_nil_iff.mpr (fun c hc => ?_)
        have ht := queuedCalls_targetId u _ c hc
        rw [applyOptimistic_id] at ht
        simp [ht, hne]
      rw [h1, List.nil_append]
      exact ih d hd2 hnd.2

lemma queuedCalls_no_color (u : LightUpdate) (d : Device)
    (h : d.capabilities.canChangeColor = false) :
    ∀ call ∈ queuedCalls u d, call.isColorCall = false := by
  intro call hcall
  unfold queuedCalls at hcall
  split_ifs at hcall <;>
    first
    | exact absurd hcall (List.not_mem_nil _)
    | (simp only [List.append_assoc, List.mem_append] at hcall
       rcases hcall with hc | hc | hc <;>
         (split at hc <;> simp_all [DeviceCall.isColorCall]))

lemma applyOptimistic_off_skip (u : LightUpdate) (d : Device)
    (hoff : d.currentState.isOn = false) (hu : u.isOn ≠ some true) :
    applyOptimistic u d = d := by
  unfold applyOptimistic
  by_cases hsel : d.isSelected = true
  · rw [if_neg (by simp [hsel]), if_pos ⟨by simp [hoff], hu⟩]
  · rw [if_pos (by simp [hsel])]

lemma queuedCalls_off_skip (u : LightUpdate) (d : Device)
    (hoff : d.currentState.isOn = false) (hu : u.isOn ≠ some true) :
    queuedCalls u d = [] := by
  unfold queuedCalls
  by_cases hsel : d.isSelected = true
  · rw [if_neg (by simp [hsel]), if_pos ⟨by simp [hoff], hu⟩]
  · rw [if_pos (by simp [hsel])]

lemma queuedCalls_brightness_only (u : LightUpdate) (d : Device) (b : ℚ) (c : Color)
    (hsel : d.isSelected = true) (hon : d.currentState.isOn = true)
    (hcb : d.capabilities.canChangeBrightness = true)
    (hcc : d.capabilities.canChangeColor = false)
    (hno : u.isOn ≠ some false) (hb : u.brightness = some b) (hc : u.color = some c) :
    (queuedCalls u (applyOptimistic u d)).countP DeviceCall.isBrightnessCall = 1 ∧
    (queuedCalls u (applyOptimistic u d)).countP DeviceCall.isColorCall = 0 := by
  cases hio : u.isOn with
  | none =>
    simp [queuedCalls, applyOptimistic, hio, hb, hc, hsel, hon, hcb, hcc,
      DeviceCall.isBrightnessCall, DeviceCall.isColorCall]
  | some v =>
    cases v with
    | false => exact absurd hio hno
    | true =>
      simp [queuedCalls, applyOptimistic, hio, hb, hc, hsel, hon, hcb, hcc,
        DeviceCall.isBrightnessCall, DeviceCall.isColorCall]

/-- C2 (amended): capability gating and off-device skipping of
`DirigeraService.updateLights`.  For every registry with distinct fixture ids
and every update carrying a color and a brightness: (a) a fixture with
`canChangeColor = false` never receives a color-setting call; (b) a fixture
that is powered off receives no call at all unless the update carries
`isOn: true`; (c) a participating, powered-on fixture that supports only
brightness receives exactly one brightness call and no color call — provided
the update does not also carry `isOn: false`.  (The proviso is forced by the
code: the optimistic pass runs first on the same device objects the queued
closure reads, so an `isOn: false` update marks every device off before the
closure runs and the closure then skips them all.) -/
theorem updateLights_capability_gating (reg : List Device) (u : LightUpdate)
    (c0 : Color) (b0 : ℚ) (hnd : (reg.map Device.id).Nodup)
    (hc : u.color = some c0) (hb : u.brightness = some b0) :
    (∀ d ∈ reg, d.capabilities.canChangeColor = false →
      ∀ call ∈ callsFor d.id (updateLights reg u).2, call.isColorCall = false) ∧
    (∀ d ∈ reg, d.currentState.isOn = false → u.isOn ≠ some true →
      callsFor d.id (updateLights reg u).2 = []) ∧
    (∀ d ∈ reg, d.isSelected = true → d.currentState.isOn = true →
      d.capabilities.canChangeBrightness = true →
      d.capabilities.canChangeColor = false → u.isOn ≠ some false →
      (callsFor d.id (updateLights reg u).2).countP DeviceCall.isBrightnessCall = 1 ∧
      (callsFor d.id (updateLights reg u).2).countP DeviceCall.isColorCall = 0) := by
  have hsnd : (updateLights reg u).2
      = (reg.map (applyOptimistic u)).flatMap (queuedCalls u) := rfl
  refine ⟨?_, ?_, ?_⟩
  · intro d hd hcolor call hcall
    rw [hsnd, callsFor_flatMap u reg d hd hnd] at hcall
    refine queuedCalls_no_color u _ ?_ call hcall
    rw [applyOptimistic_capabilities]
    exact hcolor
  · intro d hd hoff hnotOn
    rw [hsnd, callsFor_flatMap u reg d hd hnd,
      applyOptimistic_off_skip u d hoff hnotOn]
    exact queuedCalls_off_skip u d hoff hnotOn
  · intro d hd hsel hon hcb hcc hno
    rw [hsnd, callsFor_flatMap u reg d hd hnd]
    exact queuedCalls_brightness_only u d b0 c0 hsel hon hcb hcc hno hb hc

/-- The spec scenario's brightness-only fixture: on, selected, no color
support. -/
def scenarioDeviceA : Device :=
  ⟨"bulb-a", "Shelf Lamp", ⟨true, false⟩, ⟨true, 50, none⟩, true⟩

/-- The spec scenario's fully capable fixture, currently powered off. -/
def scenarioDeviceB : Device :=
  ⟨"bulb-b", "Ceiling", ⟨true, true⟩, ⟨false, 70, some ⟨120, 1⟩⟩, true⟩

/-- The spec scenario's update: `{color:{hue:0,saturation:1}, brightness:80}`. -/
def scenarioUpdate : LightUpdate := ⟨some ⟨0, 1⟩, some 80, none, none⟩

/-- An update carrying a color, a brightness and `isOn: false`. -/
def scenarioUpdateOff : LightUpdate := ⟨some ⟨0, 1⟩, some 80, none, some false⟩

/-- Counterexample to C2 as stated: for the update
`{color:{hue:0,saturation:1}, brightness:80, isOn:false}` — an `updateLights`
call carrying a color and a brightness — the powered-on, participating,
brightness-only fixture receives no call at all (the optimistic pass turns it
off locally, and the queued closure then skips it), not exactly one
brightness call. -/
theorem updateLights_capability_gating_counterexample :
    (updateLights [scenarioDeviceA] scenarioUpdateOff).2 = [] ∧
    ¬ ((callsFor scenarioDeviceA.id
          (updateLights [scenarioDeviceA] scenarioUpdateOff).2).countP
        DeviceCall.isBrightnessCall = 1) := by
  constructor
  · rfl
  · decide

/-- Witness for C2 at the spec's scenario registry. -/
theorem updateLights_capability_gating_witness :
    (∀ d ∈ [scenarioDeviceA, scenarioDeviceB],
      d.capabilities.canChangeColor = false →
      ∀ call ∈ callsFor d.id
        (updateLights [scenarioDeviceA, scenarioDeviceB] scenarioUpdate).2,
        call.isColorCall = false) ∧
    (∀ d ∈ [scenarioDeviceA, scenarioDeviceB],
      d.currentState.isOn = false → scenarioUpdate.isOn ≠ some true →
      callsFor d.id
        (updateLights [scenarioDeviceA, scenarioDeviceB] scenarioUpdate).2 = []) ∧
    (∀ d ∈ [scenarioDeviceA, scenarioDeviceB],
      d.isSelected = true → d.currentState.isOn = true →
      d.capabilities.canChangeBrightness = true →
      d.capabilities.canChangeColor = false → scenarioUpdate.isOn ≠ some false →
      (callsFor d.id
        (updateLights [scenarioDeviceA, scenarioDeviceB] scenarioUpdate).2).countP
          DeviceCall.isBrightnessCall = 1 ∧
      (callsFor d.id
        (updateLights [scenarioDeviceA, scenarioDeviceB] scenarioUpdate).2).countP
          DeviceCall.isColorCall = 0) :=
  updateLights_capability_gating [scenarioDeviceA, scenarioDeviceB] scenarioUpdate
    ⟨0, 1⟩ 80 (by decide) rfl rfl

/-! ## API boundary: `LightsController.updateLights` request validation

The `POST /api/lights/update` handler stops any running scene, validates the
body (hue in `[0, 360)`, saturation in `[0, 1]`, brightness in `[1, 100]`),
and only then delegates to `DirigeraService.updateLights`.  On a validation
failure it responds 400 with a message naming the invalid field and returns
before touching the service: nothing is enqueued and no device state
changes.  (The `typeof` checks of the source are subsumed by the typed
model.) -/

inductive ApiResponse where
  | ok
  | badRequest (error : String)
deriving DecidableEq, Repr

def hueErrorMsg : String := "Invalid hue value. Must be between 0 and 359."

def saturationErrorMsg : String := "Invalid saturation value. Must be between 0 and 1."

def brightnessErrorMsg : String := "Invalid brightness value. Must be between 1 and 100."

/-- `color.hue < 0 || color.hue >= 360` (only checked when a color is sent). -/
def hueInvalid (u : LightUpdate) : Bool :=
  match u.color with
  | some c => decide (c.hue < 0 ∨ 360 ≤ c.hue)
  | none => false

/-- `color.saturation < 0 || color.saturation > 1`. -/
def saturationInvalid (u : LightUpdate) : Bool :=
  match u.color with
  | some c => decide (c.saturation < 0 ∨ 1 < c.saturation)
  | none => false

/-- `brightness < 1 || brightness > 100` (only checked when sent). -/
def brightnessInvalid (u : LightUpdate) : Bool :=
  match u.brightness with
  | some b => decide (b < 1 ∨ 100 < b)
  | none => false

structure HandlerResult where
  response : ApiResponse
  enqueued : List DeviceCall
  devices : List Device
  sceneStopped : Bool
deriving DecidableEq, Repr

/-- `LightsController.updateLights`: stop scenes, validate in source order
(hue, then saturation, then brightness), then delegate to the service. -/
def updateLightsHandler (reg : List Device) (u : LightUpdate) : HandlerResult :=
  if hueInvalid u then ⟨.badRequest hueErrorMsg, [], reg, true⟩
  else if saturationInvalid u then ⟨.badRequest saturationErrorMsg, [], reg, true⟩
  else if brightnessInvalid u then ⟨.badRequest brightnessErrorMsg, [], reg, true⟩
  else ⟨.ok, (updateLights reg u).2, (updateLights reg u).1, true⟩

/-- C3: For every `updateLights` request whose parameters are out of range
(hue outside `[0, 360)`, saturation outside `[0, 1]`, or brightness outside
`[1, 100]`), the handler returns an error response naming the invalid field,
no command is enqueued into the actuation queue, and the device registry is
unchanged. -/
theorem updateLights_validation (reg : List Device) (u : LightUpdate)
    (h : hueInvalid u = true ∨ saturationInvalid u = true ∨
      brightnessInvalid u = true) :
    (updateLightsHandler reg u).enqueued = [] ∧
    (updateLightsHandler reg u).devices = reg ∧
    ∃ msg, (updateLightsHandler reg u).response = ApiResponse.badRequest msg ∧
      ((msg = hueErrorMsg ∧ hueInvalid u = true) ∨
       (msg = saturationErrorMsg ∧ saturationInvalid u = true) ∨
       (msg = brightnessErrorMsg ∧ brightnessInvalid u = true)) := by
  unfold updateLightsHandler
  split_ifs with h1 h2 h3
  · exact ⟨rfl, rfl, hueErrorMsg, rfl, Or.inl ⟨rfl, h1⟩⟩
  · exact ⟨rfl, rfl, saturationErrorMsg, rfl, Or.inr (Or.inl ⟨rfl, h2⟩)⟩
  · exact ⟨rfl, rfl, brightnessErrorMsg, rfl, Or.inr (Or.inr ⟨rfl, h3⟩)⟩
  · rcases h with h | h | h <;> simp_all

/-- Witness for C3: a request with hue 400 is rejected with the hue message
and reaches neither the queue nor the registry. -/
theorem updateLights_validation_witness :
    (updateLightsHandler [scenarioDeviceA] ⟨some ⟨400, 1/2⟩, some 50, none, none⟩).enqueued
      = [] ∧
    (updateLightsHandler [scenarioDeviceA] ⟨some ⟨400, 1/2⟩, some 50, none, none⟩).devices
      = [scenarioDeviceA] ∧
    ∃ msg,
      (updateLightsHandler [scenarioDeviceA]
          ⟨some ⟨400, 1/2⟩, some 50, none, none⟩).response
        = ApiResponse.badRequest msg ∧
      ((msg = hueErrorMsg ∧ hueInvalid ⟨some ⟨400, 1/2⟩, some 50, none, none⟩ = true) ∨
       (msg = saturationErrorMsg ∧
         saturationInvalid ⟨some ⟨400, 1/2⟩, some 50, none, none⟩ = true) ∨
       (msg = brightnessErrorMsg ∧
         brightnessInvalid ⟨some ⟨400, 1/2⟩, some 50, none, none⟩ = true)) :=
  updateLights_validation [scenarioDeviceA] ⟨some ⟨400, 1/2⟩, some 50, none, none⟩
    (Or.inl (by decide))

/-! ## Scene engine: start / stop / update state machine

`SceneEngine` holds at most one `activeInterval` (a `setInterval` handle) and
at most one `currentScene`.  `startScene` always calls `stop()` first, which
synchronously clears the interval; `updateScene` merges the partial update
into the stored scene and, when the updated scene is the running one,
replaces the active interval in place — always with the *drift* loop at
`transitionSpeed / 2`, even for spatial scenes (the source's restart branch
never recreates the spatial loop or its fixed 1000 ms cadence).  We model
interval handles with a counter so a freshly created interval is distinct
from every previously created one; ticks are produced only by the live
interval, so "no further ticks attributable to scene A" is "A's interval is
no longer the live one". -/

inductive SceneType where
  | drift
  | static
deriving DecidableEq, Repr

inductive SpatialMode where
  | linear
  | radial
  | random
deriving DecidableEq, Repr

structure SpatialConfig where
  mode : SpatialMode
  scale : ℚ
  speed : ℚ
  angle : ℚ
deriving DecidableEq, Repr

structure Scene where
  id : String
  name : String
  palette : List Color
  type : SceneType
  transitionSpeed : ℚ
  brightness : ℚ
  spatial : Option SpatialConfig
deriving DecidableEq, Repr

/-- Which loop body a live interval runs (`spatialLoop` or `driftLoop`). -/
inductive LoopKind where
  | driftLoop
  | spatialLoop
deriving DecidableEq, Repr

/-- A live `setInterval` handle together with what it ticks. -/
structure TickInterval where
  id : ℕ
  sceneId : String
  kind : LoopKind
  period : ℚ
deriving DecidableEq, Repr

structure EngineState where
  scenes : List Scene
  activeInterval : Option TickInterval
  currentScene : Option Scene
  isRunning : Bool
  startTime : ℚ
  nextIntervalId : ℕ
deriving DecidableEq, Repr

/-- Interval handles held by the engine were created by it. -/
def EngineWF (st : EngineState) : Prop :=
  ∀ p, st.activeInterval = some p → p.id < st.nextIntervalId

namespace SceneEngine

/-- `SceneEngine.stop()`: clear the interval, forget the current scene. -/
def stop (st : EngineState) : EngineState :=
  { st with activeInterval := none, currentScene := none, isRunning := false }

/-- The interval `startScene` installs: drift scenes tick `spatialLoop` every
1000 ms when spatial, otherwise `driftLoop` every `transitionSpeed / 2`;
static scenes install no interval. -/
def startTick (scene : Scene) (nid : ℕ) : Option TickInterval :=
  if scene.type = SceneType.drift then
    some ⟨nid, scene.id,
      if scene.spatial.isSome then LoopKind.spatialLoop else LoopKind.driftLoop,
      if scene.spatial.isSome then 1000 else scene.transitionSpeed / 2⟩
  else none

/-- `SceneEngine.startScene(sceneId)`: returns `false` for an unknown scene;
otherwise stops the previous scene first, then starts the new one. -/
def startScene (st : EngineState) (sceneId : String) (now : ℚ) :
    Bool × EngineState :=
  match st.scenes.find? (fun s => decide (s.id = sceneId)) with
  | none => (false, st)
  | some scene =>
    let st1 := stop st
    let ts := startTick scene st1.nextIntervalId
    (true,
     { st1 with
       currentScene := some scene
       isRunning := true
       startTime := now
       activeInterval := ts
       nextIntervalId :=
         if ts.isSome then st1.nextIntervalId + 1 else st1.nextIntervalId })

/-- The editable fields of a `PUT /api/scenes/:id` body. -/
structure SceneUpdates where
  transitionSpeed : Option ℚ
  brightness : Option ℚ
deriving DecidableEq, Repr

/-- `{ ...scene, ...updates }`. -/
def mergeScene (s : Scene) (upd : SceneUpdates) : Scene :=
  { s with
    transitionSpeed := upd.transitionSpeed.getD s.transitionSpeed
    brightness := upd.brightness.getD s.brightness }

/-- `this.scenes[index] = merged` for the first index whose id matches. -/
def replaceFirstScene : List Scene → String → Scene → List Scene
  | [], _, _ => []
  | s :: rest, sid, ns =>
    if s.id = sid then ns :: rest else s :: replaceFirstScene rest sid ns

/-- `SceneEngine.updateScene(sceneId, updates)`: merge the update into the
stored scene; if it is the current scene, refresh `currentScene`, and if the
engine is running with a live interval, clear it and — only for drift-type
scenes — install a fresh interval running `driftLoop` at the new
`transitionSpeed / 2`. -/
def updateScene (st : EngineState) (sceneId : String) (upd : SceneUpdates) :
    Option Scene × EngineState :=
  match st.scenes.find? (fun s => decide (s.id = sceneId)) with
  | none => (none, st)
  | some scene =>
    let merged := mergeScene scene upd
    let scenes2 := replaceFirstScene st.scenes sceneId merged
    match st.currentScene with
    | some c =>
      if c.id = sceneId then
        if st.isRunning ∧ st.activeInterval.isSome then
          if merged.type = SceneType.drift then
            (some merged,
             { st with
               scenes := scenes2
               currentScene := some merged
               activeInterval := some ⟨st.nextIntervalId, merged.id,
                 LoopKind.driftLoop, merged.transitionSpeed / 2⟩
               nextIntervalId := st.nextIntervalId + 1 })
          else
            (some merged,
             { st with
               scenes := scenes2
               currentScene := some merged
               activeInterval := none })
        else
          (some merged, { st with scenes := scenes2, currentScene := some merged })
      else (some merged, { st with scenes := scenes2 })
    | none => (some merged, { st with scenes := scenes2 })

end SceneEngine

/-- C4: Scene exclusivity.  Whenever `startScene` succeeds it leaves exactly
one active scene — the requested one — with the engine running; the
previously live interval (if any) is no longer live, so no further ticks
attributable to the previous scene are produced, and any live interval after
the call ticks the requested scene.  Likewise `stop()` always leaves the
engine with no active scene and no live interval. -/
theorem scene_exclusivity (st : EngineState) (sceneId : String) (now : ℚ)
    (hwf : EngineWF st)
    (hok : (SceneEngine.startScene st sceneId now).1 = true) :
    (∃ s, st.scenes.find? (fun s => decide (s.id = sceneId)) = some s ∧
      (SceneEngine.startScene st sceneId now).2.currentScene = some s) ∧
    (SceneEngine.startScene st sceneId now).2.isRunning = true ∧
    (∀ p, st.activeInterval = some p →
      (SceneEngine.startScene st sceneId now).2.activeInterval ≠ some p) ∧
    (∀ q, (SceneEngine.startScene st sceneId now).2.activeInterval = some q →
      q.sceneId = sceneId) ∧
    ((SceneEngine.stop st).activeInterval = none ∧
      (SceneEngine.stop st).currentScene = none ∧
      (SceneEngine.stop st).isRunning = false) := by
  cases hf : st.scenes.find? (fun s => decide (s.id = sceneId)) with
  | none =>
    rw [show (SceneEngine.startScene st sceneId now).1
        = false by simp [SceneEngine.startScene, hf]] at hok
    exact absurd hok (by simp)
  | some scene =>
    have hsid : scene.id = sceneId := by
      have := List.find?_some hf
      simpa using this
    have hstate : (SceneEngine.startScene st sceneId now).2.currentScene
          = some scene ∧
        (SceneEngine.startScene st sceneId now).2.isRunning = true ∧
        (SceneEngine.startScene st sceneId now).2.activeInterval
          = SceneEngine.startTick scene st.nextIntervalId := by
      simp [SceneEngine.startScene, hf, SceneEngine.stop]
    refine ⟨⟨scene, rfl, hstate.1⟩, hstate.2.1, ?_, ?_, rfl, rfl, rfl⟩
    · intro p hp hnew
      rw [hstate.2.2] at hnew
      have hplt : p.id < st.nextIntervalId := hwf p hp
      unfold SceneEngine.startTick at hnew
      split_ifs at hnew
      all_goals
        first
        | exact Option.noConfusion hnew
        | (injection hnew with h
           exact absurd hplt (by rw [← h]; simp))
    · intro q hq
      rw [hstate.2.2] at hq
      unfold SceneEngine.startTick at hq
      split_ifs at hq
      all_goals
        first
        | exact Option.noConfusion hq
        | (injection hq with h
           rw [← h]
           exact hsid)

/-- A non-spatial drift preset (transition speed 10000 ms). -/
def loftScene : Scene :=
  ⟨"loft", "Brooklyn Loft", [⟨20, 4/5⟩, ⟨30, 2/5⟩], SceneType.drift, 10000, 50, none⟩

/-- A spatial drift scene (linear wave, scale 2, speed 0.1). -/
def waveScene : Scene :=
  ⟨"wave", "Ocean Wave", [⟨200, 9/10⟩, ⟨220, 4/5⟩], SceneType.drift, 8000, 60,
    some ⟨SpatialMode.linear, 2, 1/10, 0⟩⟩

/-- An engine state with the loft scene running on interval 0. -/
def engineRunningLoft : EngineState :=
  ⟨[loftScene, waveScene], some ⟨0, "loft", LoopKind.driftLoop, 5000⟩,
    some loftScene, true, 0, 1⟩

/-- Witness for C4: starting the wave scene while the loft scene runs. -/
theorem scene_exclusivity_witness :
    (∃ s, engineRunningLoft.scenes.find? (fun s => decide (s.id = "wave")) = some s ∧
      (SceneEngine.startScene engineRunningLoft "wave" 100).2.currentScene = some s) ∧
    (SceneEngine.startScene engineRunningLoft "wave" 100).2.isRunning = true ∧
    (∀ p, engineRunningLoft.activeInterval = some p →
      (SceneEngine.startScene engineRunningLoft "wave" 100).2.activeInterval
        ≠ some p) ∧
    (∀ q, (SceneEngine.startScene engineRunningLoft "wave" 100).2.activeInterval
        = some q → q.sceneId = "wave") ∧
    ((SceneEngine.stop engineRunningLoft).activeInterval = none ∧
      (SceneEngine.stop engineRunningLoft).currentScene = none ∧
      (SceneEngine.stop engineRunningLoft).isRunning = false) :=
  scene_exclusivity engineRunningLoft "wave" 100
    (by
      intro p hp
      simp only [engineRunningLoft, Option.some.injEq] at hp
      rw [← hp]
      decide)
    (by decide)

/-- C8 (amended): `updateScene(sceneId, {transitionSpeed?, brightness?})` on
the running scene takes effect without a stop/restart: the engine stays
running, `currentScene` becomes the merged scene, and the previously live
interval is replaced in place by a fresh one.  For a drift-type scene the
fresh interval always runs the non-spatial `driftLoop` at the new
`transitionSpeed / 2`: a non-spatial drift scene therefore ticks exactly as
if it had been started with the new parameters, but a spatial scene does
*not* keep its spatial wave ticks at the 1000 ms spatial cadence — its
replacement interval differs from the one a fresh `startScene` would
install. -/
theorem updateScene_in_place (st : EngineState) (sceneId : String)
    (upd : SceneEngine.SceneUpdates) (c : Scene) (p : TickInterval) (m : Scene)
    (hwf : EngineWF st) (hcur : st.currentScene = some c) (hcid : c.id = sceneId)
    (hrun : st.isRunning = true) (hact : st.activeInterval = some p)
    (hm : (SceneEngine.updateScene st sceneId upd).1 = some m)
    (hdrift : m.type = SceneType.drift) :
    (SceneEngine.updateScene st sceneId upd).2.isRunning = true ∧
    (SceneEngine.updateScene st sceneId upd).2.currentScene = some m ∧
    (SceneEngine.updateScene st sceneId upd).2.activeInterval ≠ some p ∧
    (SceneEngine.updateScene st sceneId upd).2.activeInterval
      = some ⟨st.nextIntervalId, m.id, LoopKind.driftLoop, m.transitionSpeed / 2⟩ ∧
    (m.spatial = none →
      (SceneEngine.updateScene st sceneId upd).2.activeInterval
        = SceneEngine.startTick m st.nextIntervalId) ∧
    (m.spatial ≠ none →
      (SceneEngine.updateScene st sceneId upd).2.activeInterval
        ≠ SceneEngine.startTick m st.nextIntervalId) := by
  cases hf : st.scenes.find? (fun s => decide (s.id = sceneId)) with
  | none =>
    rw [show (SceneEngine.updateScene st sceneId upd).1 = none by
      simp [SceneEngine.updateScene, hf]] at hm
    exact Option.noConfusion hm
  | some scene =>
    have hm2 : (SceneEngine.updateScene st sceneId upd).1
        = some (SceneEngine.mergeScene scene upd) := by
      simp only [SceneEngine.updateScene, hf]
      split <;> first | rfl | (split_ifs <;> rfl)
    rw [hm2] at hm
    injection hm with hm
    subst hm
    set merged := SceneEngine.mergeScene scene upd with hmg
    have hs2 : (SceneEngine.updateScene st sceneId upd).2
        = { st with
            scenes := SceneEngine.replaceFirstScene st.scenes sceneId merged
            currentScene := some merged
            activeInterval := some ⟨st.nextIntervalId, merged.id,
              LoopKind.driftLoop, merged.transitionSpeed / 2⟩
            nextIntervalId := st.nextIntervalId + 1 } := by
      simp only [SceneEngine.updateScene, hf, hcur]
      rw [if_pos hcid, if_pos ⟨hrun, by rw [hact]; rfl⟩, if_pos hdrift]
    refine ⟨by rw [hs2]; exact hrun, by rw [hs2], ?_, by rw [hs2], ?_, ?_⟩
    · rw [hs2]
      intro heq
      have hlt : p.id < st.nextIntervalId := hwf p hact
      simp only [Option.some.injEq] at heq
      rw [← heq] at hlt
      simp at hlt
    · intro hspat
      rw [hs2]
      simp [SceneEngine.startTick, hdrift, hspat]
    · intro hspat
      rw [hs2]
      have hsome : merged.spatial.isSome = true := by
        cases hmsp : merged.spatial with
        | none => exact absurd hmsp hspat
        | some cfg => rfl
      simp [SceneEngine.startTick, hdrift, hsome]

/-- The engine state with the spatial wave scene running on its 1000 ms
spatial interval. -/
def engineRunningWave : EngineState :=
  ⟨[loftScene, waveScene], some ⟨0, "wave", LoopKind.spatialLoop, 1000⟩,
    some waveScene, true, 0, 1⟩

/-- Counterexample to C8 as stated: updating the running *spatial* wave scene
with `transitionSpeed := 6000` replaces its interval with the non-spatial
drift loop at 3000 ms, while a fresh start of the updated scene would install
the spatial loop at the 1000 ms spatial cadence — subsequent ticks do not
behave as if the scene had been started with the new parameters. -/
theorem updateScene_in_place_counterexample :
    (SceneEngine.updateScene engineRunningWave "wave" ⟨some 6000, none⟩).2.activeInterval
      = some ⟨1, "wave", LoopKind.driftLoop, 3000⟩ ∧
    SceneEngine.startTick (SceneEngine.mergeScene waveScene ⟨some 6000, none⟩) 1
      = some ⟨1, "wave", LoopKind.spatialLoop, 1000⟩ ∧
    (SceneEngine.updateScene engineRunningWave "wave" ⟨some 6000, none⟩).2.activeInterval
      ≠ SceneEngine.startTick (SceneEngine.mergeScene waveScene ⟨some 6000, none⟩) 1 := by
  have h1 : (SceneEngine.updateScene engineRunningWave "wave"
        ⟨some 6000, none⟩).2.activeInterval
      = some ⟨1, "wave", LoopKind.driftLoop, (6000 : ℚ) / 2⟩ := rfl
  have h2 : SceneEngine.startTick (SceneEngine.mergeScene waveScene ⟨some 6000, none⟩) 1
      = some ⟨1, "wave", LoopKind.spatialLoop, 1000⟩ := rfl
  refine ⟨?_, h2, ?_⟩
  · rw [h1]
    norm_num
  · rw [h1, h2]
    simp [TickInterval.mk.injEq]

/-- Witness for C8 at the running non-spatial loft scene, updated to
transition speed 4000 and brightness 80. -/
theorem updateScene_in_place_witness :
    (SceneEngine.updateScene engineRunningLoft "loft" ⟨some 4000, some 80⟩).2.isRunning
      = true ∧
    (SceneEngine.updateScene engineRunningLoft "loft" ⟨some 4000, some 80⟩).2.currentScene
      = some (SceneEngine.mergeScene loftScene ⟨some 4000, some 80⟩) ∧
    (SceneEngine.updateScene engineRunningLoft "loft" ⟨some 4000, some 80⟩).2.activeInterval
      ≠ some ⟨0, "loft", LoopKind.driftLoop, 5000⟩ ∧
    (SceneEngine.updateScene engineRunningLoft "loft" ⟨some 4000, some 80⟩).2.activeInterval
      = some ⟨engineRunningLoft.nextIntervalId,
          (SceneEngine.mergeScene loftScene ⟨some 4000, some 80⟩).id,
          LoopKind.driftLoop,
          (SceneEngine.mergeScene loftScene ⟨some 4000, some 80⟩).transitionSpeed / 2⟩ ∧
    ((SceneEngine.mergeScene loftScene ⟨some 4000, some 80⟩).spatial = none →
      (SceneEngine.updateScene engineRunningLoft "loft" ⟨some 4000, some 80⟩).2.activeInterval
        = SceneEngine.startTick (SceneEngine.mergeScene loftScene ⟨some 4000, some 80⟩)
            engineRunningLoft.nextIntervalId) ∧
    ((SceneEngine.mergeScene loftScene ⟨some 4000, some 80⟩).spatial ≠ none →
      (SceneEngine.updateScene engineRunningLoft "loft" ⟨some 4000, some 80⟩).2.activeInterval
        ≠ SceneEngine.startTick (SceneEngine.mergeScene loftScene ⟨some 4000, some 80⟩)
            engineRunningLoft.nextIntervalId) :=
  updateScene_in_place engineRunningLoft "loft" ⟨some 4000, some 80⟩ loftScene
    ⟨0, "loft", LoopKind.driftLoop, 5000⟩
    (SceneEngine.mergeScene loftScene ⟨some 4000, some 80⟩)
    (by
      intro p hp
      simp only [engineRunningLoft, Option.some.injEq] at hp
      rw [← hp]
      decide)
    rfl rfl rfl rfl rfl rfl

/-! ## Feature extractor: `BeatDetector.detect`

`BeatDetector` keeps a rolling window of the last 43 energy samples and a
`lastBeatTime`.  `detect` pushes the current energy, trims the window, and
fires a beat only when the current energy exceeds
`mean + 1.3 * sqrt(variance)`, the window variance exceeds the 0.02 floor,
and strictly more than the 100 ms refractory interval has elapsed since the
last emitted beat.  Energies and timestamps are JS doubles; we model them as
reals because the dynamic threshold takes a square root. -/

structure BeatResult where
  intensity : ℝ
  confidence : ℝ

structure BeatState where
  energyHistory : List ℝ
  lastBeatTime : ℝ

/-- `this.energyHistory.push(e); if (length > 43) shift();`. -/
def pushTrim (h : List ℝ) (e : ℝ) : List ℝ :=
  if (h ++ [e]).length > 43 then (h ++ [e]).tail else h ++ [e]

/-- `averageEnergy`: mean of the energy window. -/
noncomputable def windowMean (h : List ℝ) : ℝ := h.sum / h.length

/-- `calculateVariance`: mean of squared deviations from the mean. -/
noncomputable def windowVariance (h : List ℝ) : ℝ :=
  (h.map (fun x => (x - windowMean h) ^ 2)).sum / h.length

/-- `dynamicThreshold = averageEnergy + threshold * sqrt(variance)` with
`threshold = 1.3`. -/
noncomputable def dynamicThreshold (h : List ℝ) : ℝ :=
  windowMean h + 1.3 * Real.sqrt (windowVariance h)

/-- `BeatDetector.detect`: push and trim, bail out while the window is short,
then fire iff energy, variance and refractory conditions all hold.  On a
fire, `lastBeatTime := now`, `intensity = min 1 ((e-mean)/mean)` and
`confidence = min 1 (max 0 ((e-dyn)/dyn))`. -/
noncomputable def detect (st : BeatState) (e now : ℝ) :
    Option BeatResult × BeatState :=
  let hist := pushTrim st.energyHistory e
  if hist.length < 43 then (none, ⟨hist, st.lastBeatTime⟩)
  else if e > dynamicThreshold hist ∧ windowVariance hist > 0.02 ∧
      now - st.lastBeatTime > 100 then
    (some ⟨min 1 ((e - windowMean hist) / windowMean hist),
           min 1 (max 0 ((e - dynamicThreshold hist) / dynamicThreshold hist))⟩,
     ⟨hist, now⟩)
  else (none, ⟨hist, st.lastBeatTime⟩)

/-- A run of the analysis loop: feed `(energy, timestamp)` samples through
`detect`, threading the state, and collect the timestamps of emitted beats. -/
noncomputable def runDetect (st : BeatState) : List (ℝ × ℝ) → List ℝ
  | [] => []
  | (e, t) :: rest =>
    match detect st e t with
    | (some _, st2) => t :: runDetect st2 rest
    | (none, st2) => runDetect st2 rest

lemma detect_fire (st : BeatState) (e now : ℝ) (r : BeatResult) (st2 : BeatState)
    (h : detect st e now = (some r, st2)) :
    e > dynamicThreshold (pushTrim st.energyHistory e) ∧
    windowVariance (pushTrim st.energyHistory e) > 0.02 ∧
    now - st.lastBeatTime > 100 ∧
    ¬ (pushTrim st.energyHistory e).length < 43 ∧
    st2 = ⟨pushTrim st.energyHistory e, now⟩ ∧
    r = ⟨min 1 ((e - windowMean (pushTrim st.energyHistory e))
            / windowMean (pushTrim st.energyHistory e)),
         min 1 (max 0 ((e - dynamicThreshold (pushTrim st.energyHistory e))
            / dynamicThreshold (pushTrim st.energyHistory e)))⟩ := by
  simp only [detect] at h
  split_ifs at h with h1 h2
  · exact absurd (congrArg Prod.fst h) (by simp)
  · rw [Prod.mk.injEq] at h
    obtain ⟨hr, hst⟩ := h
    injection hr with hr
    exact ⟨h2.1, h2.2.1, h2.2.2, h1, hst.symm, hr.symm⟩
  · exact absurd (congrArg Prod.fst h) (by simp)

lemma detect_none_state (st : BeatState) (e now : ℝ) (st2 : BeatState)
    (h : detect st e now = (none, st2)) :
    st2.lastBeatTime = st.lastBeatTime := by
  simp only [detect] at h
  split_ifs at h
  · rw [Prod.mk.injEq] at h
    rw [← h.2]
  · exact absurd (congrArg Prod.fst h) (by simp)
  · rw [Prod.mk.injEq] at h
    rw [← h.2]

lemma runDetect_chain (samples : List (ℝ × ℝ)) :
    ∀ st : BeatState, List.Chain' (fun a b : ℝ => a + 100 < b)
      (st.lastBeatTime :: runDetect st samples) := by
  induction samples with
  | nil => intro st; simp [runDetect]
  | cons s rest ih =>
    intro st
    obtain ⟨e, t⟩ := s
    rcases hd : detect st e t with ⟨res, st2⟩
    cases res with
    | none =>
      have hrun : runDetect st ((e, t) :: rest) = runDetect st2 rest := by
        simp only [runDetect, hd]
      have hlast : st2.lastBeatTime = st.lastBeatTime := detect_none_state st e t st2 hd
      rw [hrun, ← hlast]
      exact ih st2
    | some r =>
      have hfire := detect_fire st e t r st2 hd
      have hrun : runDetect st ((e, t) :: rest) = t :: runDetect st2 rest := by
        simp only [runDetect, hd]
      rw [hrun]
      refine List.chain'_cons.mpr ⟨by linarith [hfire.2.2.1], ?_⟩
      have h2 : st2.lastBeatTime = t := by rw [hfire.2.2.2.2.1]
      have := ih st2
      rw [h2] at this
      exact this

/-- C6: Beat refractory.  A beat fires only when the current energy exceeds
`mean + 1.3*sqrt(variance)` over the updated window, the window variance
exceeds the 0.02 floor, and more than 100 ms have elapsed since the last
emitted beat; consequently, in any run of the detector the emitted beat
timestamps are successively more than 100 ms apart — so for two
firing-condition samples less than 100 ms apart, at most one beat is
emitted. -/
theorem beat_refractory :
    (∀ (st : BeatState) (e now : ℝ) (r : BeatResult) (st2 : BeatState),
      detect st e now = (some r, st2) →
      e > dynamicThreshold (pushTrim st.energyHistory e) ∧
      windowVariance (pushTrim st.energyHistory e) > 0.02 ∧
      now - st.lastBeatTime > 100) ∧
    (∀ (st : BeatState) (samples : List (ℝ × ℝ)),
      List.Chain' (fun a b : ℝ => a + 100 < b)
        (st.lastBeatTime :: runDetect st samples)) :=
  ⟨fun st e now r st2 h =>
    ⟨(detect_fire st e now r st2 h).1, (detect_fire st e now r st2 h).2.1,
      (detect_fire st e now r st2 h).2.2.1⟩,
   fun st samples => runDetect_chain samples st⟩

/-- `BeatDetector.calculateEnergy`: mean squared bass magnitude times the
time-domain RMS.  Byte values are modelled as reals. -/
noncomputable def calculateEnergy (frequencyData timeDomainData : List ℝ) : ℝ :=
  ((frequencyData.map (fun v => v * v)).sum / frequencyData.length) *
    Real.sqrt ((timeDomainData.map (fun v => ((v - 128) / 128) ^ 2)).sum
      / timeDomainData.length)

/-- Every energy sample fed into the window is non-negative: the justification
for the non-negativity hypothesis of the beat-event bounds. -/
lemma calculateEnergy_nonneg (frequencyData timeDomainData : List ℝ) :
    0 ≤ calculateEnergy frequencyData timeDomainData := by
  unfold calculateEnergy
  have h1 : 0 ≤ (frequencyData.map (fun v => v * v)).sum :=
    List.sum_nonneg (by
      intro x hx
      obtain ⟨v, -, rfl⟩ := List.mem_map.mp hx
      exact mul_self_nonneg v)
  exact mul_nonneg (div_nonneg h1 (Nat.cast_nonneg _)) (Real.sqrt_nonneg _)

/-- A 42-sample energy window: 31 samples of 10, 5 of 11, 5 of 9, one of 1.
After pushing the energy 19 the 43-sample window has mean 10 and
variance 4. -/
noncomputable def witnessHistory : List ℝ :=
  List.replicate 31 10 ++ List.replicate 5 11 ++ List.replicate 5 9 ++ [1]

/-- A detector state about to fire: the window above, last beat at 0. -/
noncomputable def witnessState : BeatState := ⟨witnessHistory, 0⟩

lemma witnessHistory_sum : witnessHistory.sum = 411 := by
  simp [witnessHistory, List.sum_append, List.sum_replicate, nsmul_eq_mul]
  norm_num

lemma witnessHistory_length : witnessHistory.length = 42 := by
  simp [witnessHistory]

lemma detect_witness_eval :
    detect witnessState 19 200
      = (some ⟨9/10, 32/63⟩, ⟨witnessHistory ++ [19], 200⟩) := by
  have hlen : (witnessHistory ++ [19] : List ℝ).length = 43 := by
    simp [witnessHistory_length]
  have hpt : pushTrim witnessState.energyHistory 19 = witnessHistory ++ [19] := by
    unfold pushTrim witnessState
    rw [if_neg (by rw [hlen]; norm_num)]
  have hsum : (witnessHistory ++ [19] : List ℝ).sum = 430 := by
    rw [List.sum_append, witnessHistory_sum]
    norm_num
  have hmean : windowMean (witnessHistory ++ [19]) = 10 := by
    rw [windowMean, hsum, hlen]
    norm_num
  have hvarsum : ((witnessHistory ++ [19] : List ℝ).map
      (fun x => (x - 10) ^ 2)).sum = 172 := by
    simp [witnessHistory, List.map_append, List.map_replicate, List.sum_append,
      List.sum_replicate, nsmul_eq_mul]
    norm_num
  have hvar : windowVariance (witnessHistory ++ [19]) = 4 := by
    rw [windowVariance]
    simp only [hmean]
    rw [hvarsum, hlen]
    norm_num
  have hsqrt : Real.sqrt (windowVariance (witnessHistory ++ [19])) = 2 := by
    rw [hvar, show (4 : ℝ) = 2 ^ 2 by norm_num]
    exact Real.sqrt_sq (by norm_num)
  have hdyn : dynamicThreshold (witnessHistory ++ [19]) = 63 / 5 := by
    rw [dynamicThreshold, hmean, hsqrt]
    norm_num
  have hlast : witnessState.lastBeatTime = 0 := rfl
  simp only [detect, hpt]
  rw [if_neg (by rw [hlen]; norm_num),
    if_pos ⟨by rw [hdyn]; norm_num, by rw [hvar]; norm_num,
      by rw [hlast]; norm_num⟩]
  rw [Prod.mk.injEq]
  refine ⟨?_, rfl⟩
  rw [hmean, hdyn, Option.some.injEq, BeatResult.mk.injEq]
  constructor
  · rw [show ((19 : ℝ) - 10) / 10 = 9/10 by norm_num]
    rw [min_eq_right (by norm_num)]
  · rw [show ((19 : ℝ) - 63/5) / (63/5) = 32/63 by norm_num]
    rw [max_eq_right (by norm_num), min_eq_right (by norm_num)]

/-- Witness for C6: the detector state above fires at time 200, and a
two-sample run has its emitted beats more than 100 ms apart from the initial
`lastBeatTime` on. -/
theorem beat_refractory_witness :
    ((19 : ℝ) > dynamicThreshold (pushTrim witnessState.energyHistory 19) ∧
      windowVariance (pushTrim witnessState.energyHistory 19) > 0.02 ∧
      (200 : ℝ) - witnessState.lastBeatTime > 100) ∧
    List.Chain' (fun a b : ℝ => a + 100 < b)
      (witnessState.lastBeatTime :: runDetect witnessState [(19, 200), (25, 250)]) :=
  ⟨beat_refractory.1 witnessState 19 200 ⟨9/10, 32/63⟩
      ⟨witnessHistory ++ [19], 200⟩ detect_witness_eval,
   beat_refractory.2 witnessState [(19, 200), (25, 250)]⟩

lemma list_sum_zero_of_nonneg {l : List ℝ} (h : ∀ x ∈ l, 0 ≤ x)
    (hs : l.sum = 0) : ∀ x ∈ l, x = 0 :=
  fun _ hx => List.all_zero_of_le_zero_le_of_sum_eq_zero h hs hx

lemma pushTrim_mem (h : List ℝ) (e : ℝ) :
    ∀ x ∈ pushTrim h e, x ∈ h ++ [e] := by
  intro x hx
  unfold pushTrim at hx
  split_ifs at hx
  · exact List.mem_of_mem_tail hx
  · exact hx

/-- C7: Every emitted beat event has intensity and confidence in `[0, 1]`.
Under the firing preconditions (variance above the floor) and with
non-negative energies — `calculateEnergy` always returns a non-negative
value — the mean of the window is strictly positive, so the intensity
division is well defined and its value is non-negative even though the code
applies only the upper clamp `min 1`. -/
theorem beat_event_bounds (st : BeatState) (e now : ℝ) (r : BeatResult)
    (st2 : BeatState) (hnn : ∀ x ∈ st.energyHistory, 0 ≤ x) (he : 0 ≤ e)
    (hd : detect st e now = (some r, st2)) :
    0 < windowMean (pushTrim st.energyHistory e) ∧
    0 ≤ r.intensity ∧ r.intensity ≤ 1 ∧ 0 ≤ r.confidence ∧ r.confidence ≤ 1 := by
  obtain ⟨hdyn, hvar, _, hlen, _, hr⟩ := detect_fire st e now r st2 hd
  set hist := pushTrim st.energyHistory e with hh
  have hmem : ∀ x ∈ hist, 0 ≤ x := by
    intro x hx
    rcases List.mem_append.mp (pushTrim_mem st.energyHistory e x hx) with hx2 | hx2
    · exact hnn x hx2
    · rw [List.mem_singleton.mp hx2]
      exact he
  have hlenpos : (0 : ℝ) < hist.length := by
    have : 43 ≤ hist.length := not_lt.mp hlen
    exact_mod_cast lt_of_lt_of_le (by norm_num) this
  have hsum_nonneg : 0 ≤ hist.sum := List.sum_nonneg hmem
  have hmean_nonneg : 0 ≤ windowMean hist := div_nonneg hsum_nonneg (le_of_lt hlenpos)
  have hmean_pos : 0 < windowMean hist := by
    rcases lt_or_eq_of_le hmean_nonneg with h | h
    · exact h
    · exfalso
      have hsum0 : hist.sum = 0 := by
        have : windowMean hist = 0 := h.symm
        rw [windowMean, div_eq_zero_iff] at this
        rcases this with h2 | h2
        · exact h2
        · exact absurd h2 (ne_of_gt hlenpos)
      have hall0 : ∀ x ∈ hist, x = 0 := list_sum_zero_of_nonneg hmem hsum0
      have hvar0 : windowVariance hist = 0 := by
        rw [windowVariance]
        have hmap : (hist.map (fun x => (x - windowMean hist) ^ 2)).sum = 0 := by
          refine List.sum_eq_zero (fun y hy => ?_)
          obtain ⟨x, hx, rfl⟩ := List.mem_map.mp hy
          rw [hall0 x hx, ← h]
          ring
        rw [hmap, zero_div]
      rw [hvar0] at hvar
      norm_num at hvar
  have hsq : 0 ≤ 1.3 * Real.sqrt (windowVariance hist) := by
    have := Real.sqrt_nonneg (windowVariance hist)
    nlinarith
  have hdyn_ge : windowMean hist ≤ dynamicThreshold hist := by
    rw [dynamicThreshold]
    linarith
  have he_mean : windowMean hist < e := lt_of_le_of_lt hdyn_ge hdyn
  have hint_pos : 0 < (e - windowMean hist) / windowMean hist :=
    div_pos (by linarith) hmean_pos
  refine ⟨hmean_pos, ?_, ?_, ?_, ?_⟩
  · rw [hr]
    exact le_min (by norm_num) (le_of_lt hint_pos)
  · rw [hr]
    exact min_le_left _ _
  · rw [hr]
    exact le_min (by norm_num) (le_max_left 0 _)
  · rw [hr]
    exact min_le_left _ _

/-- Witness for C7 at the firing state of the C6 witness. -/
theorem beat_event_bounds_witness :
    0 < windowMean (pushTrim witnessState.energyHistory 19) ∧
    0 ≤ (⟨9/10, 32/63⟩ : BeatResult).intensity ∧
    (⟨9/10, 32/63⟩ : BeatResult).intensity ≤ 1 ∧
    0 ≤ (⟨9/10, 32/63⟩ : BeatResult).confidence ∧
    (⟨9/10, 32/63⟩ : BeatResult).confidence ≤ 1 :=
  beat_event_bounds witnessState 19 200 ⟨9/10, 32/63⟩
    ⟨witnessHistory ++ [19], 200⟩
    (by
      intro x hx
      simp only [witnessState, witnessHistory, List.mem_append,
        List.mem_replicate, List.mem_singleton] at hx
      rcases hx with ((⟨-, rfl⟩ | ⟨-, rfl⟩) | ⟨-, rfl⟩) | rfl <;> norm_num)
    (by norm_num) detect_witness_eval

/-! ## Sync engine (Spotify backend): `AnalysisState.smoothColor`

`smoothColor` keeps the last 5 colors, weights recent ones more heavily
(`weight = (index+1)/n`), and accumulates only `cos(hueRadians) * weight`
toward the smoothed hue (the sine component is never accumulated).  The hue
is then recovered as `atan2(0, totalHue/totalWeight) * 180/π`: with a zero
first argument, `atan2` returns 0 for a non-negative second argument and π
for a negative one, so every non-trivial smoothed hue collapses to 0 or
180. -/

/-- A color of the backend controller (JS doubles). -/
structure ColorR where
  hue : ℝ
  saturation : ℝ

/-- `Math.atan2(0, x)`: `0` for `x ≥ 0` (including `+0`), `π` for `x < 0`. -/
noncomputable def atan2Zero (x : ℝ) : ℝ := if x < 0 then Real.pi else 0

/-- `this.colorHistory.push(newColor); if (length > 5) shift();`. -/
def smoothHist (history : List ColorR) (newColor : ColorR) : List ColorR :=
  if (history ++ [newColor]).length > 5 then (history ++ [newColor]).tail
  else history ++ [newColor]

/-- `totalHue`: the weighted sum of hue cosines (`forEach` with
`weight = (index+1)/length`). -/
noncomputable def weightedCosSum (hist : List ColorR) : ℝ :=
  (hist.enum.map (fun p =>
    Real.cos (p.2.hue * Real.pi / 180) * ((p.1 + 1 : ℝ) / hist.length))).sum

/-- `totalSaturation`: the weighted sum of saturations. -/
noncomputable def weightedSatSum (hist : List ColorR) : ℝ :=
  (hist.enum.map (fun p => p.2.saturation * ((p.1 + 1 : ℝ) / hist.length))).sum

/-- `totalWeight`. -/
noncomputable def weightTotal (hist : List ColorR) : ℝ :=
  (hist.enum.map (fun p => ((p.1 + 1 : ℝ) / hist.length))).sum

/-- `AnalysisState.smoothColor`: push/trim; a singleton history returns the
new color unchanged; otherwise the smoothed hue is
`atan2(0, totalHue/totalWeight) * 180/π` normalized into `[0, 360)` and the
saturation is the weighted mean clamped to `[0, 1]`. -/
noncomputable def smoothColor (history : List ColorR) (newColor : ColorR) :
    ColorR × List ColorR :=
  let hist := smoothHist history newColor
  if hist.length = 1 then (newColor, hist)
  else
    let smoothedHue :=
      atan2Zero (weightedCosSum hist / weightTotal hist) * 180 / Real.pi
    let normalizedHue := if smoothedHue < 0 then smoothedHue + 360 else smoothedHue
    (⟨normalizedHue, max 0 (min 1 (weightedSatSum hist / weightTotal hist))⟩, hist)

lemma smoothHist_length_ne_one (history : List ColorR) (newColor : ColorR)
    (hne : history ≠ []) : (smoothHist history newColor).length ≠ 1 := by
  have hpos : 0 < history.length := List.length_pos.mpr hne
  unfold smoothHist
  split_ifs with h
  · simp only [List.length_tail, List.length_append, List.length_singleton] at *
    omega
  · simp only [List.length_append, List.length_singleton] at *
    omega

/-- C10 (implicit claim): whenever the smoothing history holds at least two
colors after the push, the smoothed hue is exactly 0 or exactly 180 — the
cosine-only accumulator discards the sine component, and
`atan2(0, c) ∈ {0, π}` — and the returned saturation is the weighted mean of
the history saturations clamped to `[0, 1]`. -/
theorem smoothColor_hue_collapse (history : List ColorR) (newColor : ColorR)
    (hne : history ≠ []) :
    ((smoothColor history newColor).1.hue = 0 ∨
      (smoothColor history newColor).1.hue = 180) ∧
    (smoothColor history newColor).1.saturation
      = max 0 (min 1 (weightedSatSum (smoothHist history newColor)
          / weightTotal (smoothHist history newColor))) := by
  have hlen := smoothHist_length_ne_one history newColor hne
  have hpi := Real.pi_pos
  simp only [smoothColor]
  rw [if_neg hlen]
  set q := weightedCosSum (smoothHist history newColor)
    / weightTotal (smoothHist history newColor) with hq_def
  by_cases hq : q < 0
  · have h180 : atan2Zero q * 180 / Real.pi = 180 := by
      rw [atan2Zero, if_pos hq]
      field_simp
    rw [h180]
    rw [if_neg (by norm_num)]
    exact ⟨Or.inr rfl, rfl⟩
  · have h0 : atan2Zero q * 180 / Real.pi = 0 := by
      rw [atan2Zero, if_neg hq]
      simp
    rw [h0]
    rw [if_neg (by norm_num)]
    exact ⟨Or.inl rfl, rfl⟩

/-- Witness for C10 at a two-color history. -/
theorem smoothColor_hue_collapse_witness :
    ((smoothColor [⟨0, 1/2⟩] ⟨90, 1⟩).1.hue = 0 ∨
      (smoothColor [⟨0, 1/2⟩] ⟨90, 1⟩).1.hue = 180) ∧
    (smoothColor [⟨0, 1/2⟩] ⟨90, 1⟩).1.saturation
      = max 0 (min 1 (weightedSatSum (smoothHist [⟨0, 1/2⟩] ⟨90, 1⟩)
          / weightTotal (smoothHist [⟨0, 1/2⟩] ⟨90, 1⟩))) :=
  smoothColor_hue_collapse [⟨0, 1/2⟩] ⟨90, 1⟩ (List.cons_ne_nil _ _)

end Moodz
